import Mathlib

/-!
Shallow embedding of the acad-celestia-backend token market core.

Sources embedded here:
* `src/src/controllers/TokenMarketController.js` (first variant): `buyTokens`,
  `sellTokens`, `swapTokens`, `depositNaira`, `withdrawNaira`,
  `getMarketStatsData`.
* `src/unnamed/part_006` (`MarketSimulationService`): `simulateMarketMovements`
  (per-market tick), `simulateNewsEvents` (event table and roulette
  selection), `applyMarketControls` (circuit breaker math).

JavaScript floating point numbers are modelled as rationals (ℚ); database
rows as fields of an explicit state record; a Sequelize transaction that
rolls back on failure is modelled by each operation returning the original
state together with `some error`.  Fields of rows that the embedded code
never reads or writes (ids, institutionName, createdAt, metadata blobs) are
omitted; `lastUpdated` timestamps are modelled as an abstract ℕ supplied to
each mutating operation.
-/

namespace AcadCelestia

/-- One TokenMarket row, with the fields the embedded controller code reads
or writes: currentValue, totalSupply, circulatingSupply, liquidityPool,
volume24h, change24h, marketCap, lastUpdated. -/
structure Market where
  currentValue : ℚ
  totalSupply : ℚ
  circulatingSupply : ℚ
  liquidityPool : ℚ
  volume24h : ℚ
  change24h : ℚ
  marketCap : ℚ
  lastUpdated : ℕ
  deriving Repr, DecidableEq

/-- One Wallet row (the naira balance is the only field the trade code
reads or writes). -/
structure Wallet where
  nairaBalance : ℚ
  deriving Repr, DecidableEq

/-- One Transaction row as created by the controller; nullable columns are
options. -/
structure Tx where
  transactionType : String
  amount : ℚ
  fee : ℚ
  tokenCode : Option String := none
  tokenAmount : Option ℚ := none
  tokenPrice : Option ℚ := none
  targetTokenCode : Option String := none
  targetTokenAmount : Option ℚ := none
  deriving Repr, DecidableEq

/-- Database state visible to one user's trade operations: the market table
(keyed by institution code), the user's wallet row (if any), the user's
TokenBalance rows (`none` = no row), and the append-only transaction log. -/
structure DBState where
  markets : String → Option Market
  wallet : Option Wallet
  holdings : String → Option ℚ
  transactions : List Tx

/-- Error results of the controller endpoints (each corresponds to one
early-return branch with a 4xx status in the source). -/
inductive TradeError where
  | invalidAmount
  | missingInstitutionCode
  | walletNotFound
  | insufficientBalance
  | tokenNotFound
  | insufficientTokenBalance
  | invalidSwapParams
  | sameInstitution
  | insufficientSourceTokenBalance
  | sourceTokenNotFound
  | targetTokenNotFound
  deriving Repr, DecidableEq

/-- Maximum 5% price impact per transaction (`maxPriceImpact` in the
controller). -/
def maxPriceImpact : ℚ := 5/100

/-- Swap fee rate of 0.5% (`nairaValue * 0.005` in `swapTokens`). -/
def swapFeeRate : ℚ := 5/1000

/-- Price impact formula shared (inline, verbatim in each of buy, sell and
both swap legs) by the controller:
`min ((size / max(liquidityPool, 1000)) * 0.01) 0.05`. -/
def priceImpact (tradeSize liquidityPool : ℚ) : ℚ :=
  min (tradeSize / max liquidityPool 1000 * (1/100)) maxPriceImpact

/-- Validation chain of `buyTokens` (controller lines 19-68): amount
positive, institution code present, wallet exists, naira balance covers the
amount, market exists.  Returns the wallet and market rows read. -/
def buyCheck (amount : ℚ) (institutionCode : String) (s : DBState) :
    Except TradeError (Wallet × Market) :=
  if amount ≤ 0 then .error .invalidAmount
  else if institutionCode = "" then .error .missingInstitutionCode
  else match s.wallet with
  | none => .error .walletNotFound
  | some wallet =>
    if wallet.nairaBalance < amount then .error .insufficientBalance
    else match s.markets institutionCode with
    | none => .error .tokenNotFound
    | some market => .ok (wallet, market)

/-- Committed effect of `buyTokens` (controller lines 70-130): tokens
credited at the pre-impact price, wallet debited by the full amount,
circulating supply and 24h volume incremented, capped upward price impact
applied, market cap recomputed, a fee-0 buy transaction appended. -/
def buyCommit (amount : ℚ) (institutionCode : String) (now : ℕ) (s : DBState)
    (wallet : Wallet) (m : Market) : DBState :=
  let tokenAmount := amount / m.currentValue
  let newHolding := match s.holdings institutionCode with
    | some b => b + tokenAmount
    | none => tokenAmount
  let circulatingSupply' := m.circulatingSupply + tokenAmount
  let impact := priceImpact amount m.liquidityPool
  let currentValue' := m.currentValue * (1 + impact)
  let m' : Market := { m with
    circulatingSupply := circulatingSupply',
    volume24h := m.volume24h + amount,
    currentValue := currentValue',
    marketCap := currentValue' * circulatingSupply',
    lastUpdated := now }
  let tx : Tx :=
    { transactionType := "buy", amount := amount, fee := 0,
      tokenCode := some institutionCode, tokenAmount := some tokenAmount,
      tokenPrice := some currentValue' }
  { markets := fun c => if c = institutionCode then some m' else s.markets c,
    wallet := some ⟨wallet.nairaBalance - amount⟩,
    holdings := fun c => if c = institutionCode then some newHolding else s.holdings c,
    transactions := s.transactions ++ [tx] }

/-- The `buyTokens` endpoint: on failure the enclosing transaction is
rolled back, so the state is returned unchanged with the error. -/
def buyTokens (amount : ℚ) (institutionCode : String) (now : ℕ) (s : DBState) :
    DBState × Option TradeError :=
  match buyCheck amount institutionCode s with
  | .error e => (s, some e)
  | .ok (wallet, m) => (buyCommit amount institutionCode now s wallet m, none)

/-- Validation chain of `sellTokens` (controller lines 162-222): amount
positive, code present, token balance row exists and covers the quantity,
market exists, wallet exists. -/
def sellCheck (tokenAmount : ℚ) (institutionCode : String) (s : DBState) :
    Except TradeError (ℚ × Market × Wallet) :=
  if tokenAmount ≤ 0 then .error .invalidAmount
  else if institutionCode = "" then .error .missingInstitutionCode
  else match s.holdings institutionCode with
  | none => .error .insufficientTokenBalance
  | some balance =>
    if balance < tokenAmount then .error .insufficientTokenBalance
    else match s.markets institutionCode with
    | none => .error .tokenNotFound
    | some market =>
      match s.wallet with
      | none => .error .walletNotFound
      | some wallet => .ok (balance, market, wallet)

/-- Committed effect of `sellTokens` (controller lines 207-266): wallet
credited with `tokenAmount * currentValue` (no fee), holding debited,
circulating supply decremented, volume incremented, capped downward price
impact applied, market cap recomputed, a fee-0 sell transaction appended. -/
def sellCommit (tokenAmount : ℚ) (institutionCode : String) (now : ℕ) (s : DBState)
    (balance : ℚ) (m : Market) (wallet : Wallet) : DBState :=
  let nairaAmount := tokenAmount * m.currentValue
  let circulatingSupply' := m.circulatingSupply - tokenAmount
  let impact := priceImpact nairaAmount m.liquidityPool
  let currentValue' := m.currentValue * (1 - impact)
  let m' : Market := { m with
    circulatingSupply := circulatingSupply',
    volume24h := m.volume24h + nairaAmount,
    currentValue := currentValue',
    marketCap := currentValue' * circulatingSupply',
    lastUpdated := now }
  let tx : Tx :=
    { transactionType := "sell", amount := nairaAmount, fee := 0,
      tokenCode := some institutionCode, tokenAmount := some tokenAmount,
      tokenPrice := some currentValue' }
  { markets := fun c => if c = institutionCode then some m' else s.markets c,
    wallet := some ⟨wallet.nairaBalance + nairaAmount⟩,
    holdings := fun c => if c = institutionCode then some (balance - tokenAmount)
      else s.holdings c,
    transactions := s.transactions ++ [tx] }

/-- The `sellTokens` endpoint with rollback-on-failure semantics. -/
def sellTokens (tokenAmount : ℚ) (institutionCode : String) (now : ℕ) (s : DBState) :
    DBState × Option TradeError :=
  match sellCheck tokenAmount institutionCode s with
  | .error e => (s, some e)
  | .ok (balance, m, wallet) =>
    (sellCommit tokenAmount institutionCode now s balance m wallet, none)

/-- Validation chain of `swapTokens` (controller lines 299-380): parameters
present and positive, distinct institutions, source balance covers the
quantity, both markets exist, wallet exists. -/
def swapCheck (sourceTokenCode targetTokenCode : String) (sourceTokenAmount : ℚ)
    (s : DBState) : Except TradeError (ℚ × Market × Market) :=
  if sourceTokenCode = "" ∨ targetTokenCode = "" ∨ sourceTokenAmount ≤ 0 then
    .error .invalidSwapParams
  else if sourceTokenCode = targetTokenCode then .error .sameInstitution
  else match s.holdings sourceTokenCode with
  | none => .error .insufficientSourceTokenBalance
  | some sourceBalance =>
    if sourceBalance < sourceTokenAmount then .error .insufficientSourceTokenBalance
    else match s.markets sourceTokenCode with
    | none => .error .sourceTokenNotFound
    | some sourceMarket =>
      match s.markets targetTokenCode with
      | none => .error .targetTokenNotFound
      | some targetMarket =>
        match s.wallet with
        | none => .error .walletNotFound
        | some _ => .ok (sourceBalance, sourceMarket, targetMarket)

/-- Committed effect of `swapTokens` (controller lines 358-459): naira value
at the source price, 0.5% swap fee, conversion at the target price, source
holding and circulating supply debited, target credited, downward impact on
the source market and upward impact on the target market, one swap
transaction appended.  The wallet row is read but never mutated. -/
def swapCommit (sourceTokenCode targetTokenCode : String) (sourceTokenAmount : ℚ)
    (now : ℕ) (s : DBState) (sourceBalance : ℚ) (srcM tgtM : Market) : DBState :=
  let nairaValue := sourceTokenAmount * srcM.currentValue
  let swapFee := nairaValue * swapFeeRate
  let nairaValueAfterFee := nairaValue - swapFee
  let targetTokenAmount := nairaValueAfterFee / tgtM.currentValue
  let newTarget := match s.holdings targetTokenCode with
    | some b => b + targetTokenAmount
    | none => targetTokenAmount
  let srcImpact := priceImpact nairaValue srcM.liquidityPool
  let srcValue' := srcM.currentValue * (1 - srcImpact)
  let srcCirc' := srcM.circulatingSupply - sourceTokenAmount
  let srcM' : Market := { srcM with
    circulatingSupply := srcCirc',
    volume24h := srcM.volume24h + nairaValue,
    currentValue := srcValue',
    marketCap := srcValue' * srcCirc',
    lastUpdated := now }
  let tgtImpact := priceImpact nairaValueAfterFee tgtM.liquidityPool
  let tgtValue' := tgtM.currentValue * (1 + tgtImpact)
  let tgtCirc' := tgtM.circulatingSupply + targetTokenAmount
  let tgtM' : Market := { tgtM with
    circulatingSupply := tgtCirc',
    volume24h := tgtM.volume24h + nairaValueAfterFee,
    currentValue := tgtValue',
    marketCap := tgtValue' * tgtCirc',
    lastUpdated := now }
  let tx : Tx :=
    { transactionType := "swap", amount := nairaValue, fee := swapFee,
      tokenCode := some sourceTokenCode, tokenAmount := some sourceTokenAmount,
      tokenPrice := some srcValue', targetTokenCode := some targetTokenCode,
      targetTokenAmount := some targetTokenAmount }
  { markets := fun c => if c = targetTokenCode then some tgtM'
      else if c = sourceTokenCode then some srcM' else s.markets c,
    wallet := s.wallet,
    holdings := fun c => if c = targetTokenCode then some newTarget
      else if c = sourceTokenCode then some (sourceBalance - sourceTokenAmount)
      else s.holdings c,
    transactions := s.transactions ++ [tx] }

/-- The `swapTokens` endpoint with rollback-on-failure semantics. -/
def swapTokens (sourceTokenCode targetTokenCode : String) (sourceTokenAmount : ℚ)
    (now : ℕ) (s : DBState) : DBState × Option TradeError :=
  match swapCheck sourceTokenCode targetTokenCode sourceTokenAmount s with
  | .error e => (s, some e)
  | .ok (sourceBalance, srcM, tgtM) =>
    (swapCommit sourceTokenCode targetTokenCode sourceTokenAmount now s
      sourceBalance srcM tgtM, none)

/-- The `depositNaira` endpoint (controller lines 493-547). -/
def depositNaira (amount : ℚ) (s : DBState) : DBState × Option TradeError :=
  if amount ≤ 0 then (s, some .invalidAmount)
  else match s.wallet with
  | none => (s, some .walletNotFound)
  | some wallet =>
    let tx : Tx := { transactionType := "deposit", amount := amount, fee := 0 }
    ({ s with
         wallet := some ⟨wallet.nairaBalance + amount⟩,
         transactions := s.transactions ++ [tx] }, none)

/-- The `withdrawNaira` endpoint (controller lines 562-625): rejects when
the naira balance is below the requested amount. -/
def withdrawNaira (amount : ℚ) (s : DBState) : DBState × Option TradeError :=
  if amount ≤ 0 then (s, some .invalidAmount)
  else match s.wallet with
  | none => (s, some .walletNotFound)
  | some wallet =>
    if wallet.nairaBalance < amount then (s, some .insufficientBalance)
    else
      let tx : Tx := { transactionType := "withdraw", amount := amount, fee := 0 }
      ({ s with
           wallet := some ⟨wallet.nairaBalance - amount⟩,
           transactions := s.transactions ++ [tx] }, none)

/-- One user-facing operation of the trade executor / wallet surface. -/
inductive Op where
  | buy (amount : ℚ) (institutionCode : String)
  | sell (tokenAmount : ℚ) (institutionCode : String)
  | swap (sourceTokenCode targetTokenCode : String) (sourceTokenAmount : ℚ)
  | deposit (amount : ℚ)
  | withdraw (amount : ℚ)

/-- Dispatch one operation against the state. -/
def runOp (op : Op) (now : ℕ) (s : DBState) : DBState × Option TradeError :=
  match op with
  | .buy amount code => buyTokens amount code now s
  | .sell amount code => sellTokens amount code now s
  | .swap src tgt amount => swapTokens src tgt amount now s
  | .deposit amount => depositNaira amount s
  | .withdraw amount => withdrawNaira amount s

/-- Run a finite sequence of operations, keeping the committed (or, on
failure, rolled-back) state after each. -/
def runOps : List Op → ℕ → DBState → DBState
  | [], _, s => s
  | op :: rest, now, s => runOps rest (now + 1) (runOp op now s).1

/-- Non-negativity invariant on balances, together with non-negativity of
every market price (needed since sell proceeds are balance credits). -/
def NonNegState (s : DBState) : Prop :=
  (∀ w, s.wallet = some w → 0 ≤ w.nairaBalance) ∧
  (∀ c b, s.holdings c = some b → 0 ≤ b) ∧
  (∀ c m, s.markets c = some m → 0 ≤ m.currentValue)

/-- Balance of a holding row, zero-defaulted. -/
def holdingBal (s : DBState) (c : String) : ℚ := (s.holdings c).getD 0

/-- Snapshot view returned by `getMarketStatsData` (controller lines
764-788): a pure projection of the TokenMarket row.  The source also copies
`institutionName`, a field set at creation and never touched by the
embedded code, so it is omitted here along with it. -/
structure MarketStats where
  institutionCode : String
  currentValue : ℚ
  change24h : ℚ
  volume24h : ℚ
  marketCap : ℚ
  circulatingSupply : ℚ
  totalSupply : ℚ
  lastUpdated : ℕ
  deriving Repr, DecidableEq

/-- The `getMarketStatsData` read (controller lines 764-788): looks up the
market row and returns its cached fields; throws (here `none`) when the
market does not exist. -/
def getMarketStatsData (institutionCode : String) (s : DBState) :
    Option MarketStats :=
  match s.markets institutionCode with
  | none => none
  | some m => some
      { institutionCode := institutionCode,
        currentValue := m.currentValue,
        change24h := m.change24h,
        volume24h := m.volume24h,
        marketCap := m.marketCap,
        circulatingSupply := m.circulatingSupply,
        totalSupply := m.totalSupply,
        lastUpdated := m.lastUpdated }

/-! Market simulation engine (`src/unnamed/part_006`,
`MarketSimulationService`).  The random draws (`Math.random()` results and
the Box-Muller normal factor, which involves `sqrt`, `log` and `cos`) are
modelled as explicit rational parameters; every theorem below holds for
arbitrary values of those parameters. -/

/-- Volatility draw: `Math.random() * 2 + 0.5` for a uniform input. -/
def calculateVolatility (u : ℚ) : ℚ := u * 2 + 1/2

/-- Sentiment draw: `(Math.random() * 2) - 1` for a uniform input. -/
def calculateMarketSentiment (u : ℚ) : ℚ := u * 2 - 1

/-- Clamp of the combined percentage change:
`Math.max(-5, Math.min(5, x))`. -/
def clampPercentage (x : ℚ) : ℚ := max (-5) (min 5 x)

/-- One market's price update inside `simulateMarketMovements`
(part_006 lines 17-42): the volatility, sentiment and random factors are
combined multiplicatively, clamped to [-5, 5] percent, and applied to the
current value. -/
def simulateTick (currentValue volatility marketSentiment randomFactor : ℚ) : ℚ :=
  currentValue * (1 + clampPercentage (volatility * marketSentiment * randomFactor) / 100)

/-- One named news event of `simulateNewsEvents` (part_006 lines 106-117). -/
structure NewsEvent where
  title : String
  impact : ℚ
  probability : ℚ
  deriving Repr, DecidableEq

/-- The fixed news event table (part_006 lines 106-117). -/
def newsEvents : List NewsEvent :=
  [ ⟨"Positive Academic Rankings", 3, 5/100⟩,
    ⟨"Research Breakthrough", 5, 3/100⟩,
    ⟨"Budget Cuts Announced", -4, 4/100⟩,
    ⟨"Student Enrollment Increased", 5/2, 6/100⟩,
    ⟨"Campus Expansion", 7/2, 3/100⟩,
    ⟨"Faculty Strike", -3, 2/100⟩,
    ⟨"New Partnership with Industry", 4, 4/100⟩,
    ⟨"Sports Team Success", 3/2, 8/100⟩,
    ⟨"Tuition Fee Increase", -2, 5/100⟩,
    ⟨"Administrative Scandal", -5, 1/100⟩ ]

/-- Cumulative-probability roulette scan of `simulateNewsEvents`
(part_006 lines 129-139): walks the table accumulating probabilities and
selects the first event whose cumulative probability reaches the draw. -/
def selectEventScan (random cumulativeProbability : ℚ) :
    List NewsEvent → Option NewsEvent
  | [] => none
  | event :: rest =>
    if random ≤ cumulativeProbability + event.probability then some event
    else selectEventScan random (cumulativeProbability + event.probability) rest

/-- Event selection including the fallback (part_006 lines 141-143):
when the scan selects nothing, `newsEvents[0]` is used.  The default value
passed to `getD` for the head of the list is never used since the table is
nonempty. -/
def selectNewsEvent (random : ℚ) : NewsEvent :=
  match selectEventScan random 0 newsEvents with
  | some event => event
  | none => newsEvents.getD 0 ⟨"", 0, 0⟩

/-- Per-market application of a selected news event (part_006 lines
149-160): the stated impact is scaled by an 80-120% variation factor and
applied to the price. -/
def applyNewsEvent (currentValue impact impactVariation : ℚ) : ℚ :=
  currentValue * (1 + impact * impactVariation / 100)

/-- Sign function used by the circuit breaker (`Math.sign`). -/
def mathSign (x : ℚ) : ℚ := if 0 < x then 1 else if x < 0 then -1 else 0

/-- Circuit breaker threshold: 20% in `applyMarketControls`. -/
def breakerThreshold : ℚ := 20

/-- Correction factor of the circuit breaker: extreme movement reduced by
50% of the excess. -/
def correctionFactor : ℚ := 1/2

/-- Implied percentage price change relative to a historical value,
`((current - historical) / historical) * 100`. -/
def priceChangePercent (currentValue historicalValue : ℚ) : ℚ :=
  (currentValue - historicalValue) / historicalValue * 100

/-- Circuit breaker of `applyMarketControls` (part_006 lines 199-237) for
one market, parameterized by the (simulated) historical value: when the
implied change magnitude exceeds 20, the excess beyond the signed threshold
is reduced by the correction factor and the price is rebuilt from the
historical value; otherwise the price is untouched. -/
def applyMarketControl (currentValue historicalValue : ℚ) : ℚ :=
  let pcp := priceChangePercent currentValue historicalValue
  if breakerThreshold < |pcp| then
    let excessChange := pcp - mathSign pcp * breakerThreshold
    let correctedChange := pcp - excessChange * correctionFactor
    historicalValue * (1 + correctedChange / 100)
  else currentValue

/-! Concrete states used by witnesses and counterexamples. -/

/-- Market row for spec scenario 1: the UNILAG market at price 1.00 with
liquidity 100000. -/
def unilagMarket : Market :=
  { currentValue := 1, totalSupply := 1000000, circulatingSupply := 500000,
    liquidityPool := 100000, volume24h := 0, change24h := 0,
    marketCap := 500000, lastUpdated := 0 }

/-- Database state for spec scenario 1: one UNILAG market, a wallet holding
2000 naira, no token balances yet. -/
def scenario1State : DBState :=
  { markets := fun c => if c = "UNILAG" then some unilagMarket else none,
    wallet := some ⟨2000⟩,
    holdings := fun _ => none,
    transactions := [] }

/-- Database state for spec scenario 2: a holding of 10 UNILAG tokens. -/
def scenario2State : DBState :=
  { markets := fun c => if c = "UNILAG" then some unilagMarket else none,
    wallet := some ⟨2000⟩,
    holdings := fun c => if c = "UNILAG" then some 10 else none,
    transactions := [] }

/-- Market A of spec scenario 4, at price 2.00. -/
def scenario4MarketA : Market := { unilagMarket with currentValue := 2 }

/-- Market B of spec scenario 4, at price 4.00. -/
def scenario4MarketB : Market := { unilagMarket with currentValue := 4 }

/-- Database state for spec scenario 4: market AAA at price 2.00, market
BBB at price 4.00, a holding of 100 AAA tokens. -/
def scenario4State : DBState :=
  { markets := fun c =>
      if c = "AAA" then some scenario4MarketA
      else if c = "BBB" then some scenario4MarketB
      else none,
    wallet := some ⟨0⟩,
    holdings := fun c => if c = "AAA" then some 100 else none,
    transactions := [] }

section ImpactLemmas

theorem priceImpact_le (tradeSize liquidityPool : ℚ) :
    priceImpact tradeSize liquidityPool ≤ maxPriceImpact :=
  min_le_right _ _

theorem priceImpact_nonneg (tradeSize liquidityPool : ℚ) (h : 0 ≤ tradeSize) :
    0 ≤ priceImpact tradeSize liquidityPool := by
  have hpool : (0:ℚ) < max liquidityPool 1000 :=
    lt_of_lt_of_le (by norm_num) (le_max_right _ _)
  have hraw : 0 ≤ tradeSize / max liquidityPool 1000 * (1/100) := by
    have := div_nonneg h hpool.le
    positivity
  exact le_min hraw (by norm_num [maxPriceImpact])

end ImpactLemmas

section Inversion

theorem buyCheck_ok {amount : ℚ} {code : String} {s : DBState}
    {w : Wallet} {m : Market} (h : buyCheck amount code s = .ok (w, m)) :
    0 < amount ∧ s.wallet = some w ∧ amount ≤ w.nairaBalance ∧
      s.markets code = some m := by
  unfold buyCheck at h
  split at h
  · exact absurd h (by simp)
  split at h
  · exact absurd h (by simp)
  split at h
  · exact absurd h (by simp)
  next wallet hw =>
    split at h
    · exact absurd h (by simp)
    next hbal =>
      split at h
      · exact absurd h (by simp)
      next market hm =>
        simp only [Except.ok.injEq, Prod.mk.injEq] at h
        obtain ⟨hw', hm'⟩ := h
        subst hw'; subst hm'
        exact ⟨by linarith [not_le.mp (by assumption)], hw, not_lt.mp hbal, hm⟩

theorem buyTokens_ok {amount : ℚ} {code : String} {now : ℕ} {s : DBState}
    (h : (buyTokens amount code now s).2 = none) :
    ∃ w m, buyCheck amount code s = .ok (w, m) ∧
      (buyTokens amount code now s).1 = buyCommit amount code now s w m := by
  unfold buyTokens at h ⊢
  cases hc : buyCheck amount code s with
  | error e => rw [hc] at h; simp at h
  | ok wm =>
    obtain ⟨w, m⟩ := wm
    exact ⟨w, m, rfl, rfl⟩

theorem sellCheck_ok {amount : ℚ} {code : String} {s : DBState}
    {b : ℚ} {m : Market} {w : Wallet}
    (h : sellCheck amount code s = .ok (b, m, w)) :
    0 < amount ∧ s.holdings code = some b ∧ amount ≤ b ∧
      s.markets code = some m ∧ s.wallet = some w := by
  unfold sellCheck at h
  split at h
  · exact absurd h (by simp)
  split at h
  · exact absurd h (by simp)
  split at h
  · exact absurd h (by simp)
  next balance hb =>
    split at h
    · exact absurd h (by simp)
    next hbal =>
      split at h
      · exact absurd h (by simp)
      next market hm =>
        split at h
        · exact absurd h (by simp)
        next wallet hw =>
          simp only [Except.ok.injEq, Prod.mk.injEq] at h
          obtain ⟨h1, h2, h3⟩ := h
          subst h1; subst h2; subst h3
          exact ⟨by linarith [not_le.mp (by assumption)], hb, not_lt.mp hbal, hm, hw⟩

theorem sellTokens_ok {amount : ℚ} {code : String} {now : ℕ} {s : DBState}
    (h : (sellTokens amount code now s).2 = none) :
    ∃ b m w, sellCheck amount code s = .ok (b, m, w) ∧
      (sellTokens amount code now s).1 = sellCommit amount code now s b m w := by
  unfold sellTokens at h ⊢
  cases hc : sellCheck amount code s with
  | error e => rw [hc] at h; simp at h
  | ok bmw =>
    obtain ⟨b, m, w⟩ := bmw
    exact ⟨b, m, w, rfl, rfl⟩

theorem swapCheck_ok {src tgt : String} {amount : ℚ} {s : DBState}
    {b : ℚ} {srcM tgtM : Market}
    (h : swapCheck src tgt amount s = .ok (b, srcM, tgtM)) :
    0 < amount ∧ src ≠ tgt ∧ s.holdings src = some b ∧ amount ≤ b ∧
      s.markets src = some srcM ∧ s.markets tgt = some tgtM ∧
      s.wallet ≠ none := by
  unfold swapCheck at h
  split at h
  · exact absurd h (by simp)
  next hparams =>
    split at h
    · exact absurd h (by simp)
    next hne =>
      split at h
      · exact absurd h (by simp)
      next balance hb =>
        split at h
        · exact absurd h (by simp)
        next hbal =>
          split at h
          · exact absurd h (by simp)
          next srcMarket hsm =>
            split at h
            · exact absurd h (by simp)
            next tgtMarket htm =>
              split at h
              · exact absurd h (by simp)
              next wallet hw =>
                simp only [Except.ok.injEq, Prod.mk.injEq] at h
                obtain ⟨h1, h2, h3⟩ := h
                subst h1; subst h2; subst h3
                push_neg at hparams
                exact ⟨hparams.2.2, hne, hb, not_lt.mp hbal, hsm,
                  htm, by rw [hw]; simp⟩

theorem swapTokens_ok {src tgt : String} {amount : ℚ} {now : ℕ} {s : DBState}
    (h : (swapTokens src tgt amount now s).2 = none) :
    ∃ b srcM tgtM, swapCheck src tgt amount s = .ok (b, srcM, tgtM) ∧
      (swapTokens src tgt amount now s).1 =
        swapCommit src tgt amount now s b srcM tgtM := by
  unfold swapTokens at h ⊢
  cases hc : swapCheck src tgt amount s with
  | error e => rw [hc] at h; simp at h
  | ok v =>
    obtain ⟨b, srcM, tgtM⟩ := v
    exact ⟨b, srcM, tgtM, rfl, rfl⟩

end Inversion

section CommitProjections

theorem buyCommit_markets_self (amount : ℚ) (code : String) (now : ℕ)
    (s : DBState) (w : Wallet) (m : Market) :
    (buyCommit amount code now s w m).markets code = some
      { m with
        circulatingSupply := m.circulatingSupply + amount / m.currentValue,
        volume24h := m.volume24h + amount,
        currentValue := m.currentValue * (1 + priceImpact amount m.liquidityPool),
        marketCap := m.currentValue * (1 + priceImpact amount m.liquidityPool) *
          (m.circulatingSupply + amount / m.currentValue),
        lastUpdated := now } := by
  simp [buyCommit]

theorem buyCommit_wallet (amount : ℚ) (code : String) (now : ℕ)
    (s : DBState) (w : Wallet) (m : Market) :
    (buyCommit amount code now s w m).wallet = some ⟨w.nairaBalance - amount⟩ :=
  rfl

theorem buyCommit_holdingBal_self (amount : ℚ) (code : String) (now : ℕ)
    (s : DBState) (w : Wallet) (m : Market) :
    holdingBal (buyCommit amount code now s w m) code =
      holdingBal s code + amount / m.currentValue := by
  cases hh : s.holdings code <;>
    simp [holdingBal, buyCommit, hh]

theorem buyCommit_transactions (amount : ℚ) (code : String) (now : ℕ)
    (s : DBState) (w : Wallet) (m : Market) :
    (buyCommit amount code now s w m).transactions = s.transactions ++
      [{ transactionType := "buy", amount := amount, fee := 0,
         tokenCode := some code,
         tokenAmount := some (amount / m.currentValue),
         tokenPrice := some (m.currentValue *
           (1 + priceImpact amount m.liquidityPool)) }] :=
  rfl

theorem sellCommit_markets_self (amount : ℚ) (code : String) (now : ℕ)
    (s : DBState) (b : ℚ) (m : Market) (w : Wallet) :
    (sellCommit amount code now s b m w).markets code = some
      { m with
        circulatingSupply := m.circulatingSupply - amount,
        volume24h := m.volume24h + amount * m.currentValue,
        currentValue := m.currentValue *
          (1 - priceImpact (amount * m.currentValue) m.liquidityPool),
        marketCap := m.currentValue *
          (1 - priceImpact (amount * m.currentValue) m.liquidityPool) *
          (m.circulatingSupply - amount),
        lastUpdated := now } := by
  simp [sellCommit]

theorem sellCommit_wallet (amount : ℚ) (code : String) (now : ℕ)
    (s : DBState) (b : ℚ) (m : Market) (w : Wallet) :
    (sellCommit amount code now s b m w).wallet =
      some ⟨w.nairaBalance + amount * m.currentValue⟩ :=
  rfl

theorem sellCommit_holdingBal_self (amount : ℚ) (code : String) (now : ℕ)
    (s : DBState) (b : ℚ) (m : Market) (w : Wallet) :
    holdingBal (sellCommit amount code now s b m w) code = b - amount := by
  simp [holdingBal, sellCommit]

theorem swapCommit_markets_src (src tgt : String) (amount : ℚ) (now : ℕ)
    (s : DBState) (b : ℚ) (srcM tgtM : Market) (hne : src ≠ tgt) :
    (swapCommit src tgt amount now s b srcM tgtM).markets src = some
      { srcM with
        circulatingSupply := srcM.circulatingSupply - amount,
        volume24h := srcM.volume24h + amount * srcM.currentValue,
        currentValue := srcM.currentValue *
          (1 - priceImpact (amount * srcM.currentValue) srcM.liquidityPool),
        marketCap := srcM.currentValue *
          (1 - priceImpact (amount * srcM.currentValue) srcM.liquidityPool) *
          (srcM.circulatingSupply - amount),
        lastUpdated := now } := by
  simp [swapCommit, hne]

theorem swapCommit_markets_tgt (src tgt : String) (amount : ℚ) (now : ℕ)
    (s : DBState) (b : ℚ) (srcM tgtM : Market) :
    (swapCommit src tgt amount now s b srcM tgtM).markets tgt = some
      { tgtM with
        circulatingSupply := tgtM.circulatingSupply +
          (amount * srcM.currentValue - amount * srcM.currentValue * swapFeeRate) /
            tgtM.currentValue,
        volume24h := tgtM.volume24h +
          (amount * srcM.currentValue - amount * srcM.currentValue * swapFeeRate),
        currentValue := tgtM.currentValue * (1 + priceImpact
          (amount * srcM.currentValue - amount * srcM.currentValue * swapFeeRate)
          tgtM.liquidityPool),
        marketCap := tgtM.currentValue * (1 + priceImpact
          (amount * srcM.currentValue - amount * srcM.currentValue * swapFeeRate)
          tgtM.liquidityPool) *
          (tgtM.circulatingSupply +
            (amount * srcM.currentValue - amount * srcM.currentValue * swapFeeRate) /
              tgtM.currentValue),
        lastUpdated := now } := by
  simp [swapCommit]

theorem swapCommit_holdingBal_tgt (src tgt : String) (amount : ℚ) (now : ℕ)
    (s : DBState) (b : ℚ) (srcM tgtM : Market) :
    holdingBal (swapCommit src tgt amount now s b srcM tgtM) tgt =
      holdingBal s tgt +
        (amount * srcM.currentValue - amount * srcM.currentValue * swapFeeRate) /
          tgtM.currentValue := by
  cases hh : s.holdings tgt <;>
    simp [holdingBal, swapCommit, hh]

theorem swapCommit_holdingBal_src (src tgt : String) (amount : ℚ) (now : ℕ)
    (s : DBState) (b : ℚ) (srcM tgtM : Market) (hne : src ≠ tgt) :
    holdingBal (swapCommit src tgt amount now s b srcM tgtM) src = b - amount := by
  simp [holdingBal, swapCommit, hne]

end CommitProjections

section ImpactBounds

theorem relative_up_impact {p i : ℚ} (hp : 0 < p) (h0 : 0 ≤ i)
    (h1 : i ≤ maxPriceImpact) :
    |p * (1 + i) - p| / p ≤ maxPriceImpact := by
  have he : p * (1 + i) - p = p * i := by ring
  rw [he, abs_mul, abs_of_pos hp, abs_of_nonneg h0, mul_comm, mul_div_assoc,
    div_self (ne_of_gt hp), mul_one]
  exact h1

theorem relative_down_impact {p i : ℚ} (hp : 0 < p) (h0 : 0 ≤ i)
    (h1 : i ≤ maxPriceImpact) :
    |p * (1 - i) - p| / p ≤ maxPriceImpact := by
  have he : p * (1 - i) - p = -(p * i) := by ring
  rw [he, abs_neg, abs_mul, abs_of_pos hp, abs_of_nonneg h0, mul_comm,
    mul_div_assoc, div_self (ne_of_gt hp), mul_one]
  exact h1

theorem afterFee_nonneg {a p : ℚ} (ha : 0 ≤ a) (hp : 0 ≤ p) :
    0 ≤ a * p - a * p * swapFeeRate := by
  have h1 : 0 ≤ a * p := mul_nonneg ha hp
  have h2 : a * p - a * p * swapFeeRate = a * p * (1 - swapFeeRate) := by ring
  rw [h2]
  exact mul_nonneg h1 (by norm_num [swapFeeRate])

end ImpactBounds

/-- C8: each random-walk simulation tick multiplies a market's price by
`1 + c/100` where `c` is the product of a volatility draw in [1/2, 5/2]
and a sentiment draw in [-1, 1] with the (Box-Muller derived) random
factor, clamped to [-5, 5]; hence the price moves by at most 5% of its old
value in one tick and a strictly positive price stays strictly positive,
for every value of the random draws. -/
theorem C8_random_walk_tick_bounded :
    (∀ u : ℚ, 0 ≤ u → u ≤ 1 →
      1/2 ≤ calculateVolatility u ∧ calculateVolatility u ≤ 5/2) ∧
    (∀ u : ℚ, 0 ≤ u → u ≤ 1 →
      -1 ≤ calculateMarketSentiment u ∧ calculateMarketSentiment u ≤ 1) ∧
    (∀ currentValue volatility sentiment randomFactor : ℚ,
      0 < currentValue →
      simulateTick currentValue volatility sentiment randomFactor =
        currentValue *
          (1 + clampPercentage (volatility * sentiment * randomFactor) / 100) ∧
      |simulateTick currentValue volatility sentiment randomFactor -
          currentValue| ≤ (5/100) * currentValue ∧
      0 < simulateTick currentValue volatility sentiment randomFactor) := by
  refine ⟨?_, ?_, ?_⟩
  · intro u h0 h1
    unfold calculateVolatility
    constructor <;> linarith
  · intro u h0 h1
    unfold calculateMarketSentiment
    constructor <;> linarith
  · intro cv v sm r hcv
    have h1 : -5 ≤ clampPercentage (v * sm * r) := le_max_left _ _
    have h2 : clampPercentage (v * sm * r) ≤ 5 :=
      max_le (by norm_num) (min_le_left _ _)
    unfold simulateTick
    set c := clampPercentage (v * sm * r) with hc
    refine ⟨rfl, ?_, ?_⟩
    · rw [abs_le]
      constructor <;> nlinarith
    · nlinarith

/-- Witness for C8 at concrete draws (volatility input 1/2, tick at price
1 with all factors 1). -/
theorem C8_random_walk_tick_bounded_witness :
    (1/2 ≤ calculateVolatility (1/2) ∧ calculateVolatility (1/2) ≤ 5/2) ∧
    (|simulateTick 1 1 1 1 - 1| ≤ (5/100) * 1 ∧ 0 < simulateTick 1 1 1 1) :=
  ⟨C8_random_walk_tick_bounded.1 (1/2) (by norm_num) (by norm_num),
   (C8_random_walk_tick_bounded.2.2 1 1 1 1 (by norm_num)).2⟩

/-- The roulette scan selects nothing once the draw exceeds the total
remaining probability mass (probabilities being non-negative). -/
theorem selectEventScan_none {r : ℚ} :
    ∀ (l : List NewsEvent) (cum : ℚ),
      (∀ e ∈ l, 0 ≤ e.probability) →
      cum + (l.map NewsEvent.probability).sum < r →
      selectEventScan r cum l = none := by
  intro l
  induction l with
  | nil => intro cum _ _; rfl
  | cons e rest ih =>
    intro cum hnn h
    simp only [List.map_cons, List.sum_cons] at h
    have hrest : 0 ≤ (rest.map NewsEvent.probability).sum := by
      apply List.sum_nonneg
      intro x hx
      simp only [List.mem_map] at hx
      obtain ⟨e', he', rfl⟩ := hx
      exact hnn e' (List.mem_cons_of_mem _ he')
    simp only [selectEventScan]
    rw [if_neg (by linarith)]
    exact ih (cum + e.probability)
      (fun x hx => hnn x (List.mem_cons_of_mem _ hx)) (by linarith)

/-- C10: the ten news event weights sum to 0.41, and every draw strictly
above 0.41 slips through the cumulative-probability scan, so the fallback
applies the first table entry (Positive Academic Rankings, impact +3). -/
theorem C10_news_event_fallback (r : ℚ) (h : 41/100 < r) :
    (newsEvents.map NewsEvent.probability).sum = 41/100 ∧
    selectEventScan r 0 newsEvents = none ∧
    selectNewsEvent r = ⟨"Positive Academic Rankings", 3, 5/100⟩ := by
  have hsum : (newsEvents.map NewsEvent.probability).sum = 41/100 := by
    norm_num [newsEvents]
  have hscan : selectEventScan r 0 newsEvents = none := by
    apply selectEventScan_none newsEvents 0
    · intro e he
      fin_cases he <;> norm_num
    · rw [hsum]; linarith
  refine ⟨hsum, hscan, ?_⟩
  unfold selectNewsEvent
  rw [hscan]
  rfl

/-- Witness for C10 at the concrete draw 1/2. -/
theorem C10_news_event_fallback_witness :
    selectEventScan (1/2) 0 newsEvents = none ∧
    selectNewsEvent (1/2) = ⟨"Positive Academic Rankings", 3, 5/100⟩ :=
  ⟨(C10_news_event_fallback (1/2) (by norm_num)).2.1,
   (C10_news_event_fallback (1/2) (by norm_num)).2.2⟩

/-- C9: the snapshot read is a pure projection of the Market row, so two
calls with the same row content (in particular with no intervening
mutation, whatever else changed elsewhere in the database) return
identical values, including the 24h-change and volume figures. -/
theorem C9_snapshot_read_idempotent (institutionCode : String)
    (s1 s2 : DBState)
    (h : s1.markets institutionCode = s2.markets institutionCode) :
    getMarketStatsData institutionCode s1 = getMarketStatsData institutionCode s2 := by
  unfold getMarketStatsData
  rw [h]

/-- Witness for C9: two states with identical UNILAG market rows but
different holdings yield the same snapshot. -/
theorem C9_snapshot_read_idempotent_witness :
    getMarketStatsData "UNILAG" scenario1State =
      getMarketStatsData "UNILAG" scenario2State :=
  C9_snapshot_read_idempotent "UNILAG" scenario1State scenario2State rfl

/-- C4: a sell whose token quantity strictly exceeds the holding balance
fails with the insufficient-token-balance error and returns the state
unchanged: no market, wallet, holding or transaction row is mutated. -/
theorem C4_insufficient_holdings_rejected (tokenAmount : ℚ)
    (institutionCode : String) (now : ℕ) (s : DBState) (balance : ℚ)
    (hamt : 0 < tokenAmount) (hcode : institutionCode ≠ "")
    (hbal : s.holdings institutionCode = some balance)
    (hlt : balance < tokenAmount) :
    sellTokens tokenAmount institutionCode now s =
      (s, some .insufficientTokenBalance) := by
  unfold sellTokens sellCheck
  rw [if_neg (not_le.mpr hamt), if_neg hcode, hbal]
  simp [hlt]

/-- Witness for C4 at spec scenario 2: selling 50 tokens against a balance
of 10 fails and leaves the state untouched. -/
theorem C4_insufficient_holdings_rejected_witness :
    sellTokens 50 "UNILAG" 7 scenario2State =
      (scenario2State, some .insufficientTokenBalance) :=
  C4_insufficient_holdings_rejected 50 "UNILAG" 7 scenario2State 10
    (by norm_num) (by decide) (by decide) (by norm_num)

/-- C7 counterexample: with historical value 1 and current value 1.4 (an
implied 40% change), the circuit breaker leaves the market's implied change
at 30%, strictly above the 20% threshold, refuting the claim that no
market's implied change exceeds the threshold after correction. -/
theorem C7_counterexample :
    breakerThreshold <
      |priceChangePercent (applyMarketControl (14/10) 1) 1| := by
  have e1 : priceChangePercent (14/10) 1 = 40 := by
    norm_num [priceChangePercent]
  have e2 : applyMarketControl (14/10) 1 = 13/10 := by
    simp only [applyMarketControl, e1]
    rw [if_pos (by rw [abs_of_pos (by norm_num)]; norm_num [breakerThreshold])]
    norm_num [mathSign, breakerThreshold, correctionFactor]
  rw [e2]
  have e3 : priceChangePercent (13/10) 1 = 30 := by
    norm_num [priceChangePercent]
  rw [e3, abs_of_pos (by norm_num)]
  norm_num [breakerThreshold]

/-- C7 (amended): when the breaker fires, the corrected implied change
keeps the threshold plus half the excess, so it is strictly smaller in
magnitude than the uncorrected change but may still exceed the 20%
threshold. -/
theorem C7_breaker_halves_excess (currentValue historicalValue : ℚ)
    (hpos : 0 < historicalValue)
    (hfire : breakerThreshold <
      |priceChangePercent currentValue historicalValue|) :
    |priceChangePercent (applyMarketControl currentValue historicalValue)
        historicalValue| =
      breakerThreshold +
        (|priceChangePercent currentValue historicalValue| -
          breakerThreshold) * correctionFactor ∧
    |priceChangePercent (applyMarketControl currentValue historicalValue)
        historicalValue| <
      |priceChangePercent currentValue historicalValue| := by
  have key : ∀ c : ℚ,
      priceChangePercent (historicalValue * (1 + c/100)) historicalValue = c := by
    intro c
    unfold priceChangePercent
    field_simp
    ring
  set p := priceChangePercent currentValue historicalValue with hp
  have happly : applyMarketControl currentValue historicalValue =
      historicalValue *
        (1 + (p - (p - mathSign p * breakerThreshold) * correctionFactor) / 100) := by
    simp only [applyMarketControl, ← hp]
    rw [if_pos hfire]
  rw [happly, key]
  simp only [breakerThreshold, correctionFactor] at hfire ⊢
  rcases lt_abs.mp hfire with h20 | h20
  · have hs : mathSign p = 1 := by
      unfold mathSign
      rw [if_pos (by linarith)]
    rw [hs, abs_of_pos (by linarith), abs_of_pos (by linarith)]
    constructor
    · ring
    · linarith
  · have hneg : p < 0 := by linarith
    have hs : mathSign p = -1 := by
      unfold mathSign
      rw [if_neg (by linarith), if_pos hneg]
    rw [hs, abs_of_neg (by linarith), abs_of_neg hneg]
    constructor
    · ring
    · linarith

/-- Witness for C7 at the concrete breaker activation with historical
value 1 and current value 1.4. -/
theorem C7_breaker_halves_excess_witness :
    |priceChangePercent (applyMarketControl (14/10) 1) 1| =
      breakerThreshold +
        (|priceChangePercent (14/10) 1| - breakerThreshold) * correctionFactor ∧
    |priceChangePercent (applyMarketControl (14/10) 1) 1| <
      |priceChangePercent (14/10) 1| :=
  C7_breaker_halves_excess (14/10) 1 (by norm_num)
    (by rw [show priceChangePercent (14/10) 1 = 40 by norm_num [priceChangePercent],
          abs_of_pos (by norm_num)]
        norm_num [breakerThreshold])

/-- C1: every committed buy, sell, or swap leg moves the affected market's
price by at most 5% of its pre-trade value (relative to the pre-impact
price, for strictly positive pre-trade prices). -/
theorem C1_bounded_single_trade_impact :
    (∀ (amount : ℚ) (code : String) (now : ℕ) (s : DBState) (m : Market),
      (buyTokens amount code now s).2 = none →
      s.markets code = some m → 0 < m.currentValue →
      ∃ m', (buyTokens amount code now s).1.markets code = some m' ∧
        |m'.currentValue - m.currentValue| / m.currentValue ≤ maxPriceImpact) ∧
    (∀ (amount : ℚ) (code : String) (now : ℕ) (s : DBState) (m : Market),
      (sellTokens amount code now s).2 = none →
      s.markets code = some m → 0 < m.currentValue →
      ∃ m', (sellTokens amount code now s).1.markets code = some m' ∧
        |m'.currentValue - m.currentValue| / m.currentValue ≤ maxPriceImpact) ∧
    (∀ (src tgt : String) (amount : ℚ) (now : ℕ) (s : DBState)
        (srcM tgtM : Market),
      (swapTokens src tgt amount now s).2 = none →
      s.markets src = some srcM → s.markets tgt = some tgtM →
      0 < srcM.currentValue → 0 < tgtM.currentValue →
      (∃ m', (swapTokens src tgt amount now s).1.markets src = some m' ∧
        |m'.currentValue - srcM.currentValue| / srcM.currentValue ≤
          maxPriceImpact) ∧
      (∃ m', (swapTokens src tgt amount now s).1.markets tgt = some m' ∧
        |m'.currentValue - tgtM.currentValue| / tgtM.currentValue ≤
          maxPriceImpact)) := by
  refine ⟨?_, ?_, ?_⟩
  · intro amount code now s m hok hm hprice
    obtain ⟨w, m0, hchk, hcommit⟩ := buyTokens_ok hok
    obtain ⟨hamt, hw, hbal, hm0⟩ := buyCheck_ok hchk
    rw [hm0] at hm
    obtain rfl : m0 = m := by injection hm
    rw [hcommit, buyCommit_markets_self]
    refine ⟨_, rfl, ?_⟩
    exact relative_up_impact hprice (priceImpact_nonneg _ _ hamt.le)
      (priceImpact_le _ _)
  · intro amount code now s m hok hm hprice
    obtain ⟨b, m0, w, hchk, hcommit⟩ := sellTokens_ok hok
    obtain ⟨hamt, hb, hbal, hm0, hw⟩ := sellCheck_ok hchk
    rw [hm0] at hm
    obtain rfl : m0 = m := by injection hm
    rw [hcommit, sellCommit_markets_self]
    refine ⟨_, rfl, ?_⟩
    exact relative_down_impact hprice
      (priceImpact_nonneg _ _ (mul_nonneg hamt.le hprice.le))
      (priceImpact_le _ _)
  · intro src tgt amount now s srcM tgtM hok hsrc htgt hsp htp
    obtain ⟨b, srcM0, tgtM0, hchk, hcommit⟩ := swapTokens_ok hok
    obtain ⟨hamt, hne, hb, hbal, hsrc0, htgt0, hwal⟩ := swapCheck_ok hchk
    rw [hsrc0] at hsrc
    obtain rfl : srcM0 = srcM := by injection hsrc
    rw [htgt0] at htgt
    obtain rfl : tgtM0 = tgtM := by injection htgt
    constructor
    · rw [hcommit, swapCommit_markets_src _ _ _ _ _ _ _ _ hne]
      refine ⟨_, rfl, ?_⟩
      exact relative_down_impact hsp
        (priceImpact_nonneg _ _ (mul_nonneg hamt.le hsp.le))
        (priceImpact_le _ _)
    · rw [hcommit, swapCommit_markets_tgt]
      refine ⟨_, rfl, ?_⟩
      exact relative_up_impact htp
        (priceImpact_nonneg _ _ (afterFee_nonneg hamt.le hsp.le))
        (priceImpact_le _ _)

/-- Witness for C1: the scenario-1 buy moves the UNILAG price by at most
5%. -/
theorem C1_bounded_single_trade_impact_witness :
    ∃ m', (buyTokens 1000 "UNILAG" 1 scenario1State).1.markets "UNILAG" =
        some m' ∧
      |m'.currentValue - unilagMarket.currentValue| /
        unilagMarket.currentValue ≤ maxPriceImpact :=
  C1_bounded_single_trade_impact.1 1000 "UNILAG" 1 scenario1State
    unilagMarket (by decide) (by decide) (by norm_num [unilagMarket])

/-- C2 counterexample: the scenario-1 buy (price 1.00, currencyAmount
1000) commits with a recorded fee of 0 and credits 1000 tokens, not the
claimed fee of 10 = 1000 * 0.01 and 990 = (1000 - 10) / 1 tokens. -/
theorem C2_counterexample :
    (buyTokens 1000 "UNILAG" 1 scenario1State).2 = none ∧
    (buyTokens 1000 "UNILAG" 1 scenario1State).1.transactions.map Tx.fee =
      [0] ∧
    holdingBal (buyTokens 1000 "UNILAG" 1 scenario1State).1 "UNILAG" =
      1000 ∧
    (0 : ℚ) ≠ 1000 * (1/100) ∧
    (1000 : ℚ) ≠ (1000 - 1000 * (1/100)) / 1 := by
  have h1 : ¬(("UNILAG" : String) = "") := by decide
  refine ⟨by decide, by rfl, ?_, by norm_num, by norm_num⟩
  norm_num [holdingBal, buyTokens, buyCheck, buyCommit, scenario1State,
    unilagMarket, h1]

/-- C2 (amended): in every committed buy the wallet decreases by exactly
the input currency amount, but the recorded fee is 0 (the controller
charges no buy fee), and the holding increases by exactly
(currencyAmount - fee) / priceBeforeImpact with that zero fee, that is by
currencyAmount / priceBeforeImpact; at the scenario-1 inputs the fee is 0
and the credited token quantity is 1000. -/
theorem C2_buy_conservation (amount : ℚ) (code : String) (now : ℕ)
    (s : DBState) (w : Wallet) (m : Market)
    (hok : (buyTokens amount code now s).2 = none)
    (hw : s.wallet = some w) (hm : s.markets code = some m) :
    (buyTokens amount code now s).1.wallet =
      some ⟨w.nairaBalance - amount⟩ ∧
    (buyTokens amount code now s).1.transactions.map Tx.fee =
      s.transactions.map Tx.fee ++ [0] ∧
    holdingBal (buyTokens amount code now s).1 code =
      holdingBal s code + (amount - 0) / m.currentValue := by
  obtain ⟨w0, m0, hchk, hcommit⟩ := buyTokens_ok hok
  obtain ⟨hamt, hw0, hbal, hm0⟩ := buyCheck_ok hchk
  rw [hw0] at hw
  obtain rfl : w0 = w := by injection hw
  rw [hm0] at hm
  obtain rfl : m0 = m := by injection hm
  rw [hcommit]
  refine ⟨buyCommit_wallet _ _ _ _ _ _, ?_, ?_⟩
  · rw [buyCommit_transactions]
    simp
  · rw [buyCommit_holdingBal_self, sub_zero]

/-- Witness for C2 (amended) at spec scenario 1. -/
theorem C2_buy_conservation_witness :
    (buyTokens 1000 "UNILAG" 1 scenario1State).1.wallet = some ⟨1000⟩ ∧
    holdingBal (buyTokens 1000 "UNILAG" 1 scenario1State).1 "UNILAG" =
      1000 := by
  have h := C2_buy_conservation 1000 "UNILAG" 1 scenario1State ⟨2000⟩
    unilagMarket (by decide) (by decide) (by decide)
  refine ⟨?_, ?_⟩
  · rw [h.1]
    norm_num
  · rw [h.2.2]
    norm_num [holdingBal, scenario1State, unilagMarket]

/-- C3 counterexample: the scenario-1 buy commits but leaves the market's
liquidity pool at 100000, not incremented by the 1000 currency amount. -/
theorem C3_counterexample :
    (buyTokens 1000 "UNILAG" 1 scenario1State).2 = none ∧
    ((buyTokens 1000 "UNILAG" 1 scenario1State).1.markets "UNILAG").map
      Market.liquidityPool = some 100000 ∧
    ((buyTokens 1000 "UNILAG" 1 scenario1State).1.markets "UNILAG").map
      Market.liquidityPool ≠ some (100000 + 1000) := by
  have h2 : ((buyTokens 1000 "UNILAG" 1 scenario1State).1.markets
      "UNILAG").map Market.liquidityPool = some 100000 := by rfl
  refine ⟨by decide, h2, ?_⟩
  rw [h2]
  intro hcontra
  have : (100000 : ℚ) = 100000 + 1000 := by injection hcontra
  norm_num at this

/-- C3 (amended): every committed buy increments the market's circulating
supply by exactly the credited token quantity and its 24h volume by
exactly the currency amount, and leaves both the liquidity pool and the
total supply unchanged. -/
theorem C3_buy_market_bookkeeping (amount : ℚ) (code : String) (now : ℕ)
    (s : DBState) (m : Market)
    (hok : (buyTokens amount code now s).2 = none)
    (hm : s.markets code = some m) :
    ∃ m', (buyTokens amount code now s).1.markets code = some m' ∧
      m'.circulatingSupply = m.circulatingSupply + amount / m.currentValue ∧
      m'.volume24h = m.volume24h + amount ∧
      m'.liquidityPool = m.liquidityPool ∧
      m'.totalSupply = m.totalSupply ∧
      holdingBal (buyTokens amount code now s).1 code =
        holdingBal s code + amount / m.currentValue := by
  obtain ⟨w0, m0, hchk, hcommit⟩ := buyTokens_ok hok
  obtain ⟨hamt, hw0, hbal, hm0⟩ := buyCheck_ok hchk
  rw [hm0] at hm
  obtain rfl : m0 = m := by injection hm
  rw [hcommit, buyCommit_markets_self]
  exact ⟨_, rfl, rfl, rfl, rfl, rfl, buyCommit_holdingBal_self _ _ _ _ _ _⟩

/-- Witness for C3 (amended) at spec scenario 1. -/
theorem C3_buy_market_bookkeeping_witness :
    ∃ m', (buyTokens 1000 "UNILAG" 1 scenario1State).1.markets "UNILAG" =
        some m' ∧
      m'.circulatingSupply = unilagMarket.circulatingSupply +
        1000 / unilagMarket.currentValue ∧
      m'.volume24h = unilagMarket.volume24h + 1000 ∧
      m'.liquidityPool = unilagMarket.liquidityPool ∧
      m'.totalSupply = unilagMarket.totalSupply ∧
      holdingBal (buyTokens 1000 "UNILAG" 1 scenario1State).1 "UNILAG" =
        holdingBal scenario1State "UNILAG" +
          1000 / unilagMarket.currentValue :=
  C3_buy_market_bookkeeping 1000 "UNILAG" 1 scenario1State unilagMarket
    (by decide) (by decide)

/-- C6: every committed swap credits the target holding with exactly
(sourceQty * sourcePrice * (1 - swapFeeRate)) / targetPrice computed at
the pre-impact prices, decrements the source market's circulating supply
by exactly the source quantity, and increments the target market's
circulating supply by exactly the credited target quantity. -/
theorem C6_swap_formula (src tgt : String) (amount : ℚ) (now : ℕ)
    (s : DBState) (srcM tgtM : Market)
    (hok : (swapTokens src tgt amount now s).2 = none)
    (hsrc : s.markets src = some srcM) (htgt : s.markets tgt = some tgtM) :
    holdingBal (swapTokens src tgt amount now s).1 tgt =
      holdingBal s tgt +
        amount * srcM.currentValue * (1 - swapFeeRate) / tgtM.currentValue ∧
    holdingBal (swapTokens src tgt amount now s).1 src =
      holdingBal s src - amount ∧
    (∃ m', (swapTokens src tgt amount now s).1.markets src = some m' ∧
      m'.circulatingSupply = srcM.circulatingSupply - amount) ∧
    (∃ m', (swapTokens src tgt amount now s).1.markets tgt = some m' ∧
      m'.circulatingSupply = tgtM.circulatingSupply +
        amount * srcM.currentValue * (1 - swapFeeRate) / tgtM.currentValue) := by
  obtain ⟨b, srcM0, tgtM0, hchk, hcommit⟩ := swapTokens_ok hok
  obtain ⟨hamt, hne, hb, hbal, hsrc0, htgt0, hwal⟩ := swapCheck_ok hchk
  rw [hsrc0] at hsrc
  obtain rfl : srcM0 = srcM := by injection hsrc
  rw [htgt0] at htgt
  obtain rfl : tgtM0 = tgtM := by injection htgt
  have hfee : amount * srcM0.currentValue -
      amount * srcM0.currentValue * swapFeeRate =
      amount * srcM0.currentValue * (1 - swapFeeRate) := by ring
  rw [hcommit]
  refine ⟨?_, ?_, ?_, ?_⟩
  · rw [swapCommit_holdingBal_tgt, hfee]
  · rw [swapCommit_holdingBal_src _ _ _ _ _ _ _ _ hne, holdingBal, hb]
    rfl
  · rw [swapCommit_markets_src _ _ _ _ _ _ _ _ hne]
    exact ⟨_, rfl, rfl⟩
  · rw [swapCommit_markets_tgt]
    refine ⟨_, rfl, ?_⟩
    rw [hfee]

/-- Witness for C6 at spec scenario 4: swapping 100 tokens from price 2.00
to price 4.00 with the 0.5% fee credits exactly 49.75 target tokens. -/
theorem C6_swap_formula_witness :
    holdingBal (swapTokens "AAA" "BBB" 100 3 scenario4State).1 "BBB" =
      199/4 := by
  have h := (C6_swap_formula "AAA" "BBB" 100 3 scenario4State
    scenario4MarketA scenario4MarketB (by decide) (by decide) (by decide)).1
  rw [h]
  have hBA : ¬(("BBB" : String) = "AAA") := by decide
  norm_num [holdingBal, scenario4State, scenario4MarketA, scenario4MarketB,
    unilagMarket, swapFeeRate, hBA]

section NonNegPreservation

theorem holdingBal_nonneg {s : DBState} (h : NonNegState s) (c : String) :
    0 ≤ holdingBal s c := by
  unfold holdingBal
  cases hh : s.holdings c with
  | none => simp
  | some b => simpa using h.2.1 c b hh

theorem buyCommit_holdings (amount : ℚ) (code : String) (now : ℕ)
    (s : DBState) (w : Wallet) (m : Market) (c : String) :
    (buyCommit amount code now s w m).holdings c =
      if c = code then some (holdingBal s code + amount / m.currentValue)
      else s.holdings c := by
  by_cases hc : c = code
  · subst hc
    cases hh : s.holdings c <;> simp [buyCommit, holdingBal, hh]
  · simp [buyCommit, hc]

theorem buyCommit_markets (amount : ℚ) (code : String) (now : ℕ)
    (s : DBState) (w : Wallet) (m : Market) (c : String) :
    (buyCommit amount code now s w m).markets c =
      if c = code then some
        { m with
          circulatingSupply := m.circulatingSupply + amount / m.currentValue,
          volume24h := m.volume24h + amount,
          currentValue := m.currentValue * (1 + priceImpact amount m.liquidityPool),
          marketCap := m.currentValue * (1 + priceImpact amount m.liquidityPool) *
            (m.circulatingSupply + amount / m.currentValue),
          lastUpdated := now }
      else s.markets c := by
  by_cases hc : c = code <;> simp [buyCommit, hc]

theorem buyCommit_nonneg {amount : ℚ} {code : String} {now : ℕ} {s : DBState}
    {w : Wallet} {m : Market} (hInv : NonNegState s) (hamt : 0 < amount)
    (hw : s.wallet = some w) (hbal : amount ≤ w.nairaBalance)
    (hm : s.markets code = some m) :
    NonNegState (buyCommit amount code now s w m) := by
  obtain ⟨hW, hH, hM⟩ := hInv
  have hprice : 0 ≤ m.currentValue := hM code m hm
  have himp : 0 ≤ priceImpact amount m.liquidityPool :=
    priceImpact_nonneg _ _ hamt.le
  refine ⟨?_, ?_, ?_⟩
  · intro w' hw'
    rw [buyCommit_wallet] at hw'
    injection hw' with hw''
    rw [← hw'']
    show 0 ≤ w.nairaBalance - amount
    linarith
  · intro c b hb
    rw [buyCommit_holdings] at hb
    by_cases hc : c = code
    · rw [if_pos hc] at hb
      injection hb with hb'
      rw [← hb']
      exact add_nonneg (holdingBal_nonneg ⟨hW, hH, hM⟩ code)
        (div_nonneg hamt.le hprice)
    · rw [if_neg hc] at hb
      exact hH c b hb
  · intro c m' hm'
    rw [buyCommit_markets] at hm'
    by_cases hc : c = code
    · rw [if_pos hc] at hm'
      injection hm' with hm''
      rw [← hm'']
      show 0 ≤ m.currentValue * (1 + priceImpact amount m.liquidityPool)
      exact mul_nonneg hprice (by linarith)
    · rw [if_neg hc] at hm'
      exact hM c m' hm'

theorem sellCommit_holdings (amount : ℚ) (code : String) (now : ℕ)
    (s : DBState) (b : ℚ) (m : Market) (w : Wallet) (c : String) :
    (sellCommit amount code now s b m w).holdings c =
      if c = code then some (b - amount) else s.holdings c := by
  by_cases hc : c = code <;> simp [sellCommit, hc]

theorem sellCommit_markets (amount : ℚ) (code : String) (now : ℕ)
    (s : DBState) (b : ℚ) (m : Market) (w : Wallet) (c : String) :
    (sellCommit amount code now s b m w).markets c =
      if c = code then some
        { m with
          circulatingSupply := m.circulatingSupply - amount,
          volume24h := m.volume24h + amount * m.currentValue,
          currentValue := m.currentValue *
            (1 - priceImpact (amount * m.currentValue) m.liquidityPool),
          marketCap := m.currentValue *
            (1 - priceImpact (amount * m.currentValue) m.liquidityPool) *
            (m.circulatingSupply - amount),
          lastUpdated := now }
      else s.markets c := by
  by_cases hc : c = code <;> simp [sellCommit, hc]

theorem one_sub_priceImpact_nonneg (tradeSize liquidityPool : ℚ) :
    0 ≤ 1 - priceImpact tradeSize liquidityPool := by
  have h := priceImpact_le tradeSize liquidityPool
  have : maxPriceImpact = 5/100 := rfl
  linarith [this ▸ h]

theorem sellCommit_nonneg {amount : ℚ} {code : String} {now : ℕ}
    {s : DBState} {b : ℚ} {m : Market} {w : Wallet} (hInv : NonNegState s)
    (hamt : 0 < amount) (hb : s.holdings code = some b) (hbal : amount ≤ b)
    (hm : s.markets code = some m) (hw : s.wallet = some w) :
    NonNegState (sellCommit amount code now s b m w) := by
  obtain ⟨hW, hH, hM⟩ := hInv
  have hprice : 0 ≤ m.currentValue := hM code m hm
  refine ⟨?_, ?_, ?_⟩
  · intro w' hw'
    rw [sellCommit_wallet] at hw'
    injection hw' with hw''
    rw [← hw'']
    show 0 ≤ w.nairaBalance + amount * m.currentValue
    have := hW w hw
    have := mul_nonneg hamt.le hprice
    linarith
  · intro c b' hb'
    rw [sellCommit_holdings] at hb'
    by_cases hc : c = code
    · rw [if_pos hc] at hb'
      injection hb' with hb''
      rw [← hb'']
      linarith
    · rw [if_neg hc] at hb'
      exact hH c b' hb'
  · intro c m' hm'
    rw [sellCommit_markets] at hm'
    by_cases hc : c = code
    · rw [if_pos hc] at hm'
      injection hm' with hm''
      rw [← hm'']
      show 0 ≤ m.currentValue *
        (1 - priceImpact (amount * m.currentValue) m.liquidityPool)
      exact mul_nonneg hprice (one_sub_priceImpact_nonneg _ _)
    · rw [if_neg hc] at hm'
      exact hM c m' hm'

theorem swapCommit_holdings (src tgt : String) (amount : ℚ) (now : ℕ)
    (s : DBState) (b : ℚ) (srcM tgtM : Market) (c : String) :
    (swapCommit src tgt amount now s b srcM tgtM).holdings c =
      if c = tgt then some (holdingBal s tgt +
        (amount * srcM.currentValue - amount * srcM.currentValue * swapFeeRate) /
          tgtM.currentValue)
      else if c = src then some (b - amount)
      else s.holdings c := by
  by_cases hct : c = tgt
  · subst hct
    cases hh : s.holdings c <;> simp [swapCommit, holdingBal, hh]
  · by_cases hcs : c = src
    · have hst : ¬src = tgt := fun hh => hct (by rw [hcs, hh])
      simp [swapCommit, hct, hcs, hst]
    · simp [swapCommit, hct, hcs]

theorem swapCommit_markets (src tgt : String) (amount : ℚ) (now : ℕ)
    (s : DBState) (b : ℚ) (srcM tgtM : Market) (c : String) :
    (swapCommit src tgt amount now s b srcM tgtM).markets c =
      if c = tgt then some
        { tgtM with
          circulatingSupply := tgtM.circulatingSupply +
            (amount * srcM.currentValue -
              amount * srcM.currentValue * swapFeeRate) / tgtM.currentValue,
          volume24h := tgtM.volume24h + (amount * srcM.currentValue -
            amount * srcM.currentValue * swapFeeRate),
          currentValue := tgtM.currentValue * (1 + priceImpact
            (amount * srcM.currentValue -
              amount * srcM.currentValue * swapFeeRate) tgtM.liquidityPool),
          marketCap := tgtM.currentValue * (1 + priceImpact
            (amount * srcM.currentValue -
              amount * srcM.currentValue * swapFeeRate) tgtM.liquidityPool) *
            (tgtM.circulatingSupply +
              (amount * srcM.currentValue -
                amount * srcM.currentValue * swapFeeRate) / tgtM.currentValue),
          lastUpdated := now }
      else if c = src then some
        { srcM with
          circulatingSupply := srcM.circulatingSupply - amount,
          volume24h := srcM.volume24h + amount * srcM.currentValue,
          currentValue := srcM.currentValue *
            (1 - priceImpact (amount * srcM.currentValue) srcM.liquidityPool),
          marketCap := srcM.currentValue *
            (1 - priceImpact (amount * srcM.currentValue) srcM.liquidityPool) *
            (srcM.circulatingSupply - amount),
          lastUpdated := now }
      else s.markets c := by
  by_cases hct : c = tgt
  · simp [swapCommit, hct]
  · by_cases hcs : c = src <;> simp [swapCommit, hct, hcs]

theorem swapCommit_nonneg {src tgt : String} {amount : ℚ} {now : ℕ}
    {s : DBState} {b : ℚ} {srcM tgtM : Market} (hInv : NonNegState s)
    (hamt : 0 < amount) (hb : s.holdings src = some b) (hbal : amount ≤ b)
    (hsrc : s.markets src = some srcM) (htgt : s.markets tgt = some tgtM) :
    NonNegState (swapCommit src tgt amount now s b srcM tgtM) := by
  obtain ⟨hW, hH, hM⟩ := hInv
  have hsp : 0 ≤ srcM.currentValue := hM src srcM hsrc
  have htp : 0 ≤ tgtM.currentValue := hM tgt tgtM htgt
  refine ⟨?_, ?_, ?_⟩
  · intro w' hw'
    exact hW w' hw'
  · intro c b' hb'
    rw [swapCommit_holdings] at hb'
    by_cases hct : c = tgt
    · rw [if_pos hct] at hb'
      injection hb' with hb''
      rw [← hb'']
      exact add_nonneg (holdingBal_nonneg ⟨hW, hH, hM⟩ tgt)
        (div_nonneg (afterFee_nonneg hamt.le hsp) htp)
    · rw [if_neg hct] at hb'
      by_cases hcs : c = src
      · rw [if_pos hcs] at hb'
        injection hb' with hb''
        rw [← hb'']
        linarith
      · rw [if_neg hcs] at hb'
        exact hH c b' hb'
  · intro c m' hm'
    rw [swapCommit_markets] at hm'
    by_cases hct : c = tgt
    · rw [if_pos hct] at hm'
      injection hm' with hm''
      rw [← hm'']
      show 0 ≤ tgtM.currentValue * (1 + priceImpact
        (amount * srcM.currentValue - amount * srcM.currentValue * swapFeeRate)
        tgtM.liquidityPool)
      have := priceImpact_nonneg
        (amount * srcM.currentValue - amount * srcM.currentValue * swapFeeRate)
        tgtM.liquidityPool (afterFee_nonneg hamt.le hsp)
      exact mul_nonneg htp (by linarith)
    · rw [if_neg hct] at hm'
      by_cases hcs : c = src
      · rw [if_pos hcs] at hm'
        injection hm' with hm''
        rw [← hm'']
        show 0 ≤ srcM.currentValue *
          (1 - priceImpact (amount * srcM.currentValue) srcM.liquidityPool)
        exact mul_nonneg hsp (one_sub_priceImpact_nonneg _ _)
      · rw [if_neg hcs] at hm'
        exact hM c m' hm'

theorem runOp_nonneg (op : Op) (now : ℕ) (s : DBState)
    (h : NonNegState s) : NonNegState (runOp op now s).1 := by
  cases op with
  | buy amount code =>
    show NonNegState (buyTokens amount code now s).1
    cases hc : buyCheck amount code s with
    | error e => simp only [buyTokens, hc]; exact h
    | ok wm =>
      obtain ⟨w, m⟩ := wm
      obtain ⟨hamt, hw, hbal, hm⟩ := buyCheck_ok hc
      simp only [buyTokens, hc]
      exact buyCommit_nonneg h hamt hw hbal hm
  | sell amount code =>
    show NonNegState (sellTokens amount code now s).1
    cases hc : sellCheck amount code s with
    | error e => simp only [sellTokens, hc]; exact h
    | ok bmw =>
      obtain ⟨b, m, w⟩ := bmw
      obtain ⟨hamt, hb, hbal, hm, hw⟩ := sellCheck_ok hc
      simp only [sellTokens, hc]
      exact sellCommit_nonneg h hamt hb hbal hm hw
  | swap src tgt amount =>
    show NonNegState (swapTokens src tgt amount now s).1
    cases hc : swapCheck src tgt amount s with
    | error e => simp only [swapTokens, hc]; exact h
    | ok v =>
      obtain ⟨b, srcM, tgtM⟩ := v
      obtain ⟨hamt, hne, hb, hbal, hsrc, htgt, hwal⟩ := swapCheck_ok hc
      simp only [swapTokens, hc]
      exact swapCommit_nonneg h hamt hb hbal hsrc htgt
  | deposit amount =>
    show NonNegState (depositNaira amount s).1
    by_cases ha : amount ≤ 0
    · simp only [depositNaira, if_pos ha]; exact h
    · simp only [depositNaira, if_neg ha]
      cases hw : s.wallet with
      | none => exact h
      | some w =>
        refine ⟨?_, h.2.1, h.2.2⟩
        intro w' hw'
        injection hw' with hw''
        rw [← hw'']
        show 0 ≤ w.nairaBalance + amount
        have := h.1 w hw
        have := not_le.mp ha
        linarith
  | withdraw amount =>
    show NonNegState (withdrawNaira amount s).1
    by_cases ha : amount ≤ 0
    · simp only [withdrawNaira, if_pos ha]; exact h
    · simp only [withdrawNaira, if_neg ha]
      cases hw : s.wallet with
      | none => exact h
      | some w =>
        by_cases hlt : w.nairaBalance < amount
        · simp only [if_pos hlt]; exact h
        · simp only [if_neg hlt]
          refine ⟨?_, h.2.1, h.2.2⟩
          intro w' hw'
          injection hw' with hw''
          rw [← hw'']
          show 0 ≤ w.nairaBalance - amount
          have := not_lt.mp hlt
          linarith

theorem runOps_nonneg (ops : List Op) (now : ℕ) (s : DBState)
    (h : NonNegState s) : NonNegState (runOps ops now s) := by
  induction ops generalizing now s with
  | nil => exact h
  | cons op rest ih => exact ih (now + 1) _ (runOp_nonneg op now s h)

theorem runOp_error_unchanged (op : Op) (now : ℕ) (s : DBState)
    (e : TradeError) (h : (runOp op now s).2 = some e) :
    (runOp op now s).1 = s := by
  cases op with
  | buy amount code =>
    simp only [runOp] at h ⊢
    unfold buyTokens at h ⊢
    cases hc : buyCheck amount code s with
    | error e' => rfl
    | ok wm =>
      obtain ⟨w, m⟩ := wm
      rw [hc] at h
      simp at h
  | sell amount code =>
    simp only [runOp] at h ⊢
    unfold sellTokens at h ⊢
    cases hc : sellCheck amount code s with
    | error e' => rfl
    | ok bmw =>
      obtain ⟨b, m, w⟩ := bmw
      rw [hc] at h
      simp at h
  | swap src tgt amount =>
    simp only [runOp] at h ⊢
    unfold swapTokens at h ⊢
    cases hc : swapCheck src tgt amount s with
    | error e' => rfl
    | ok v =>
      obtain ⟨b, srcM, tgtM⟩ := v
      rw [hc] at h
      simp at h
  | deposit amount =>
    simp only [runOp] at h ⊢
    unfold depositNaira at h ⊢
    by_cases ha : amount ≤ 0
    · rw [if_pos ha]
    · rw [if_neg ha] at h ⊢
      cases hw : s.wallet with
      | none => rfl
      | some w =>
        rw [hw] at h
        simp at h
  | withdraw amount =>
    simp only [runOp] at h ⊢
    unfold withdrawNaira at h ⊢
    by_cases ha : amount ≤ 0
    · rw [if_pos ha]
    · rw [if_neg ha] at h ⊢
      cases hw : s.wallet with
      | none => rfl
      | some w =>
        rw [hw] at h
        by_cases hlt : w.nairaBalance < amount
        · simp [hlt]
        · simp [hlt] at h

theorem scenario1State_nonneg : NonNegState scenario1State := by
  refine ⟨?_, ?_, ?_⟩
  · intro w hw
    simp only [scenario1State] at hw
    injection hw with h
    rw [← h]
    show (0:ℚ) ≤ 2000
    norm_num
  · intro c b hb
    simp only [scenario1State] at hb
    exact absurd hb (by simp)
  · intro c m hm
    simp only [scenario1State] at hm
    by_cases hc : c = "UNILAG"
    · rw [if_pos hc] at hm
      injection hm with h
      rw [← h]
      norm_num [unilagMarket]
    · rw [if_neg hc] at hm
      exact absurd hm (by simp)

end NonNegPreservation

/-- C5: over any finite sequence of buy, sell, swap, deposit and withdraw
operations from a state with non-negative wallet, holding and price
values, every balance stays non-negative after every operation; and an
operation that fails returns an error with the state unchanged (the
rollback), never a clamped balance. -/
theorem C5_nonnegativity_preserved :
    (∀ (ops : List Op) (now : ℕ) (s : DBState),
      NonNegState s → NonNegState (runOps ops now s)) ∧
    (∀ (op : Op) (now : ℕ) (s : DBState) (e : TradeError),
      (runOp op now s).2 = some e → (runOp op now s).1 = s) :=
  ⟨runOps_nonneg, runOp_error_unchanged⟩

/-- Witness for C5: a concrete sequence of operations from scenario 1
keeps all balances non-negative, and a failing oversized withdrawal leaves
the state unchanged. -/
theorem C5_nonnegativity_preserved_witness :
    NonNegState (runOps
      [Op.buy 1000 "UNILAG", Op.sell 500 "UNILAG", Op.withdraw 100,
        Op.deposit 50] 0 scenario1State) ∧
    (runOp (Op.withdraw 5000) 0 scenario1State).1 = scenario1State :=
  ⟨C5_nonnegativity_preserved.1 _ 0 scenario1State scenario1State_nonneg,
   C5_nonnegativity_preserved.2 (Op.withdraw 5000) 0 scenario1State
     .insufficientBalance (by decide)⟩

end AcadCelestia
